import Mathlib

/-!
Shallow embedding of the PPSSPP vertex-decoder header
(GPU/Common/VertexDecoderCommon.h) and proofs about the claims of its
specification.

Floats are embedded as exact rationals (ℚ): every float operation the
readers perform (loads, multiplications by constant reciprocals,
comparisons, and the int cast) is modelled by the corresponding exact
rational operation.  Raw memory is a byte map; since the IEEE-754 bit
encoding of floats is not the subject of any claim, a float load from
memory is modelled by a second, float-typed view of the same memory.
-/

/-- Memory: a byte view (for integer loads) and a float view (for float
loads; `floats a` is the float stored at byte address `a`). -/
structure Mem where
  bytes : Nat → Nat
  floats : Nat → Rat

/-- The byte stored at address `a` (reduced to 8 bits). -/
def byteAt (m : Mem) (a : Nat) : Nat := m.bytes a % 256

/-- Unsigned 8-bit load. -/
def readU8 (m : Mem) (a : Nat) : Nat := byteAt m a

/-- Unsigned 16-bit little-endian load. -/
def readU16 (m : Mem) (a : Nat) : Nat := byteAt m a + 256 * byteAt m (a + 1)

/-- Unsigned 32-bit little-endian load. -/
def readU32 (m : Mem) (a : Nat) : Nat :=
  byteAt m a + 256 * byteAt m (a + 1) + 65536 * byteAt m (a + 2) + 16777216 * byteAt m (a + 3)

/-- Reinterpret an 8-bit value as two's-complement signed. -/
def toS8 (b : Nat) : Int := if b < 128 then (b : Int) else (b : Int) - 256

/-- Reinterpret a 16-bit value as two's-complement signed. -/
def toS16 (w : Nat) : Int := if w < 32768 then (w : Int) else (w : Int) - 65536

/-- Signed 8-bit load. -/
def readS8 (m : Mem) (a : Nat) : Int := toS8 (byteAt m a)

/-- Signed 16-bit little-endian load. -/
def readS16 (m : Mem) (a : Nat) : Int := toS16 (readU16 m a)

/-- Float load (the float view of memory at byte address `a`). -/
def readF32 (m : Mem) (a : Nat) : Rat := m.floats a

/-- C cast of a float to int: truncation toward zero. -/
def ctrunc (q : Rat) : Int :=
  if 0 ≤ q.num then q.num / (q.den : Int) else -((-q.num) / (q.den : Int))

/- The DecVtxFormat output-format enumeration of VertexDecoderCommon.h
(anonymous enum, "Keep this in 4 bits"). -/

def DEC_NONE : Nat := 0
def DEC_FLOAT_1 : Nat := 1
def DEC_FLOAT_2 : Nat := 2
def DEC_FLOAT_3 : Nat := 3
def DEC_FLOAT_4 : Nat := 4
def DEC_S8_3 : Nat := 5
def DEC_S16_3 : Nat := 6
def DEC_U8_1 : Nat := 7
def DEC_U8_2 : Nat := 8
def DEC_U8_3 : Nat := 9
def DEC_U8_4 : Nat := 10
def DEC_U16_1 : Nat := 11
def DEC_U16_2 : Nat := 12
def DEC_U16_3 : Nat := 13
def DEC_U16_4 : Nat := 14

/-- Modelled from the spec: the GE vertex-type bit constants live in
GPU/ge_constants.h, which is not part of this source tree.  The through-mode
flag is one bit of the vertex-type bitfield. -/
def GE_VTYPE_THROUGH : Nat := 8388608

/-- Modelled from the spec: index-width field of the vertex-type bitfield
(ge_constants.h is not part of this source tree); the two-bit field selects
none / 8-bit / 16-bit / 32-bit indices. -/
def GE_VTYPE_IDX_NONE : Nat := 0
def GE_VTYPE_IDX_8BIT : Nat := 2048
def GE_VTYPE_IDX_16BIT : Nat := 4096
def GE_VTYPE_IDX_32BIT : Nat := 6144
def GE_VTYPE_IDX_MASK : Nat := 6144

/-- DecVtxFormat: per-attribute decoded format tags and byte offsets, plus
the decoded stride (VertexDecoderCommon.h). -/
structure DecVtxFormat where
  uvfmt : Nat
  uvoff : Nat
  c0fmt : Nat
  c0off : Nat
  c1fmt : Nat
  c1off : Nat
  nrmfmt : Nat
  nrmoff : Nat
  posfmt : Nat
  posoff : Nat
  stride : Nat

/-- RoundUp4 of VertexDecoderCommon.h: `(x + 3) & ~3` on a 32-bit int,
embedded on naturals with the explicit 32-bit mask `~3 = 0xFFFFFFFC`. -/
def RoundUp4 (x : Nat) : Nat := (x + 3) &&& 4294967292

/-- IndexConverter state: base address of the index buffer and the masked
index-type field. -/
structure IndexConverter where
  indices : Nat
  indexType : Nat

/-- The IndexConverter constructor: masks the vertex type with
GE_VTYPE_IDX_MASK. -/
def IndexConverter.make (vertType : Nat) (indices : Nat) : IndexConverter :=
  { indices := indices, indexType := vertType &&& GE_VTYPE_IDX_MASK }

/-- IndexConverter::convert: reads the index at logical position `index` at
the declared width, or returns `index` unchanged in the default case. -/
def IndexConverter.convert (c : IndexConverter) (m : Mem) (index : Nat) : Nat :=
  if c.indexType = GE_VTYPE_IDX_8BIT then readU8 m (c.indices + index)
  else if c.indexType = GE_VTYPE_IDX_16BIT then readU16 m (c.indices + 2 * index)
  else if c.indexType = GE_VTYPE_IDX_32BIT then readU32 m (c.indices + 4 * index)
  else index

/-- Modelled from the spec: ERROR_LOG_REPORT_ONCE comes from Common/Log.h,
which is not part of this source tree; it raises its diagnostic only the
first time its key fires, so the log (a list of raised keys) gains the key
only when the key is not already present. -/
def reportOnce (key : String) (log : List String) : List String :=
  if key ∈ log then log else key :: log

/-- VertexReader state: base pointer, current record pointer, decoded
format, and the raw vertex type (for the through bit). -/
structure VertexReader where
  base : Nat
  data : Nat
  decFmt : DecVtxFormat
  vtype : Nat

/-- The VertexReader constructor (data_ starts at base_). -/
def VertexReader.make (base : Nat) (decFmt : DecVtxFormat) (vtype : Nat) : VertexReader :=
  ⟨base, base, decFmt, vtype⟩

/-- VertexReader::isThrough: tests the through bit of the vertex type. -/
def VertexReader.isThrough (r : VertexReader) : Bool :=
  decide (r.vtype &&& GE_VTYPE_THROUGH ≠ 0)

/-- VertexReader::Goto: data_ = base_ + index * stride. -/
def VertexReader.Goto (r : VertexReader) (index : Nat) : VertexReader :=
  { r with data := r.base + index * r.decFmt.stride }

/-- VertexReader::ReadPos.  Returns the three position floats and the
diagnostic log (the default case raises the `fmtpos` key once). -/
def VertexReader.ReadPos (r : VertexReader) (m : Mem) (log : List String) :
    (Rat × Rat × Rat) × List String :=
  let off := r.data + r.decFmt.posoff
  if r.decFmt.posfmt = DEC_FLOAT_3 then
    let p0 := readF32 m off
    let p1 := readF32 m (off + 4)
    let p2 := readF32 m (off + 8)
    if r.isThrough then
      let z : Rat := (ctrunc p2 : Int) * (1 / 65535)
      ((p0, p1, if z > 1 then 1 else if z < 0 then 0 else z), log)
    else
      ((p0, p1, p2), log)
  else if r.decFmt.posfmt = DEC_S16_3 then
    if r.isThrough then
      (((readS16 m off : Rat), (readS16 m (off + 2) : Rat),
        (readU16 m (off + 4) : Rat) * (1 / 65535)), log)
    else
      (((readS16 m off : Rat) * (1 / 32768), (readS16 m (off + 2) : Rat) * (1 / 32768),
        (readS16 m (off + 4) : Rat) * (1 / 32768)), log)
  else if r.decFmt.posfmt = DEC_S8_3 then
    if r.isThrough then
      (((readS8 m off : Rat), (readS8 m (off + 1) : Rat),
        (readU8 m (off + 2) : Rat) * (1 / 255)), log)
    else
      (((readS8 m off : Rat) * (1 / 128), (readS8 m (off + 1) : Rat) * (1 / 128),
        (readS8 m (off + 2) : Rat) * (1 / 128)), log)
  else
    (((0 : Rat), (0 : Rat), (0 : Rat)), reportOnce "fmtpos" log)

/-- VertexReader::ReadPosThroughZ16: like ReadPos but in through mode Z is
kept raw (clamped to [0, 65535] in the float case). -/
def VertexReader.ReadPosThroughZ16 (r : VertexReader) (m : Mem) (log : List String) :
    (Rat × Rat × Rat) × List String :=
  let off := r.data + r.decFmt.posoff
  if r.decFmt.posfmt = DEC_FLOAT_3 then
    let p0 := readF32 m off
    let p1 := readF32 m (off + 4)
    let p2 := readF32 m (off + 8)
    if r.isThrough then
      let z : Rat := (ctrunc p2 : Int)
      ((p0, p1, if z > 65535 then 65535 else if z < 0 then 0 else z), log)
    else
      ((p0, p1, p2), log)
  else if r.decFmt.posfmt = DEC_S16_3 then
    if r.isThrough then
      (((readS16 m off : Rat), (readS16 m (off + 2) : Rat),
        (readU16 m (off + 4) : Rat)), log)
    else
      (((readS16 m off : Rat) * (1 / 32768), (readS16 m (off + 2) : Rat) * (1 / 32768),
        (readS16 m (off + 4) : Rat) * (1 / 32768)), log)
  else if r.decFmt.posfmt = DEC_S8_3 then
    if r.isThrough then
      (((readS8 m off : Rat), (readS8 m (off + 1) : Rat),
        (readU8 m (off + 2) : Rat)), log)
    else
      (((readS8 m off : Rat) * (1 / 128), (readS8 m (off + 1) : Rat) * (1 / 128),
        (readS8 m (off + 2) : Rat) * (1 / 128)), log)
  else
    (((0 : Rat), (0 : Rat), (0 : Rat)), reportOnce "fmtz16" log)

/-- VertexReader::ReadNrm. -/
def VertexReader.ReadNrm (r : VertexReader) (m : Mem) (log : List String) :
    (Rat × Rat × Rat) × List String :=
  let off := r.data + r.decFmt.nrmoff
  if r.decFmt.nrmfmt = DEC_FLOAT_3 then
    ((readF32 m off, readF32 m (off + 4), readF32 m (off + 8)), log)
  else if r.decFmt.nrmfmt = DEC_S16_3 then
    (((readS16 m off : Rat) * (1 / 32767), (readS16 m (off + 2) : Rat) * (1 / 32767),
      (readS16 m (off + 4) : Rat) * (1 / 32767)), log)
  else if r.decFmt.nrmfmt = DEC_S8_3 then
    (((readS8 m off : Rat) * (1 / 127), (readS8 m (off + 1) : Rat) * (1 / 127),
      (readS8 m (off + 2) : Rat) * (1 / 127)), log)
  else
    (((0 : Rat), (0 : Rat), (0 : Rat)), reportOnce "fmtnrm" log)

/-- VertexReader::ReadUV. -/
def VertexReader.ReadUV (r : VertexReader) (m : Mem) (log : List String) :
    (Rat × Rat) × List String :=
  let off := r.data + r.decFmt.uvoff
  if r.decFmt.uvfmt = DEC_U8_2 then
    (((readU8 m off : Rat) * (1 / 128), (readU8 m (off + 1) : Rat) * (1 / 128)), log)
  else if r.decFmt.uvfmt = DEC_U16_2 then
    (((readU16 m off : Rat) * (1 / 32768), (readU16 m (off + 2) : Rat) * (1 / 32768)), log)
  else if r.decFmt.uvfmt = DEC_FLOAT_2 then
    ((readF32 m off, readF32 m (off + 4)), log)
  else
    (((0 : Rat), (0 : Rat)), reportOnce "fmtuv" log)

/-- VertexReader::ReadColor0 (four components). -/
def VertexReader.ReadColor0 (r : VertexReader) (m : Mem) (log : List String) :
    (Rat × Rat × Rat × Rat) × List String :=
  let off := r.data + r.decFmt.c0off
  if r.decFmt.c0fmt = DEC_U8_4 then
    (((readU8 m off : Rat) * (1 / 255), (readU8 m (off + 1) : Rat) * (1 / 255),
      (readU8 m (off + 2) : Rat) * (1 / 255), (readU8 m (off + 3) : Rat) * (1 / 255)), log)
  else if r.decFmt.c0fmt = DEC_FLOAT_4 then
    ((readF32 m off, readF32 m (off + 4), readF32 m (off + 8), readF32 m (off + 12)), log)
  else
    (((0 : Rat), (0 : Rat), (0 : Rat), (0 : Rat)), reportOnce "fmtc0" log)

/-- VertexReader::ReadColor1 (three components; the memcpy in the float case
copies 12 bytes, i.e. three floats). -/
def VertexReader.ReadColor1 (r : VertexReader) (m : Mem) (log : List String) :
    (Rat × Rat × Rat) × List String :=
  let off := r.data + r.decFmt.c1off
  if r.decFmt.c1fmt = DEC_U8_4 then
    (((readU8 m off : Rat) * (1 / 255), (readU8 m (off + 1) : Rat) * (1 / 255),
      (readU8 m (off + 2) : Rat) * (1 / 255)), log)
  else if r.decFmt.c1fmt = DEC_FLOAT_4 then
    ((readF32 m off, readF32 m (off + 4), readF32 m (off + 8)), log)
  else
    (((0 : Rat), (0 : Rat), (0 : Rat)), reportOnce "fmtc1" log)

/-! Basic bounds on the scalar loads. -/

theorem byteAt_lt (m : Mem) (a : Nat) : byteAt m a < 256 :=
  Nat.mod_lt _ (by norm_num)

theorem readU16_lt (m : Mem) (a : Nat) : readU16 m a < 65536 := by
  have h0 := byteAt_lt m a
  have h1 := byteAt_lt m (a + 1)
  unfold readU16
  omega

theorem readS8_le (m : Mem) (a : Nat) : readS8 m a ≤ 127 := by
  unfold readS8 toS8
  have h := byteAt_lt m a
  split <;> omega

theorem readS16_le (m : Mem) (a : Nat) : readS16 m a ≤ 32767 := by
  unfold readS16 toS16
  have h := readU16_lt m a
  split <;> omega

/-! Concrete fixtures used by counterexamples and witnesses. -/

/-- A decoded format whose position is a signed-16 triplet at offset 0. -/
def fmtS16 : DecVtxFormat := ⟨0, 0, 0, 0, 0, 0, 0, 0, DEC_S16_3, 0, 12⟩

/-- A through-mode reader over fmtS16. -/
def rS16 : VertexReader := VertexReader.make 0 fmtS16 GE_VTYPE_THROUGH

/-- Memory whose position Z halfword holds -100 reinterpreted as unsigned
16-bit (0xFF9C = 65436). -/
def memZneg100 : Mem := ⟨fun a => if a = 4 then 156 else if a = 5 then 255 else 0, fun _ => 0⟩

/-- Memory whose position Z halfword holds 70000 truncated to 16 bits
(70000 mod 65536 = 4464 = 0x1170). -/
def memZ70000 : Mem := ⟨fun a => if a = 4 then 112 else if a = 5 then 17 else 0, fun _ => 0⟩

/-- A decoded format whose position is a float triplet at offset 0. -/
def fmtF3 : DecVtxFormat := ⟨0, 0, 0, 0, 0, 0, 0, 0, DEC_FLOAT_3, 0, 12⟩

/-- A through-mode reader over fmtF3. -/
def rF3 : VertexReader := VertexReader.make 0 fmtF3 GE_VTYPE_THROUGH

/-- Memory whose position Z float holds -100.0. -/
def memFneg100 : Mem := ⟨fun _ => 0, fun a => if a = 8 then (-100 : Rat) else 0⟩

/-- Memory whose position Z float holds 70000.0. -/
def memF70000 : Mem := ⟨fun _ => 0, fun a => if a = 8 then (70000 : Rat) else 0⟩

/-- C2, counterexample: with the decoded position in signed-16 triplet format
and through-mode on, the signed-16 path of ReadPos does not clamp at all: the
stored Z halfword -100 (as unsigned: 65436) yields 65436/65535, not 0.0, and
the 70000-equivalent halfword (4464) yields 4464/65535, not 1.0, while
ReadPosThroughZ16 yields the raw 4464, not 65535.0. -/
theorem c2_s16_through_counterexample :
    ((rS16.ReadPos memZneg100 []).1).2.2 = (65436 : Rat) / 65535 ∧
    ((rS16.ReadPos memZneg100 []).1).2.2 ≠ 0 ∧
    ((rS16.ReadPos memZ70000 []).1).2.2 = (4464 : Rat) / 65535 ∧
    ((rS16.ReadPos memZ70000 []).1).2.2 ≠ 1 ∧
    ((rS16.ReadPosThroughZ16 memZ70000 []).1).2.2 = 4464 ∧
    ((rS16.ReadPosThroughZ16 memZ70000 []).1).2.2 ≠ 65535 := by
  refine ⟨?_, ?_, ?_, ?_, ?_, ?_⟩ <;>
    norm_num [VertexReader.ReadPos, VertexReader.ReadPosThroughZ16, VertexReader.make,
      VertexReader.isThrough, rS16, fmtS16, memZneg100, memZ70000, readU16, readS16,
      toS16, byteAt, readF32, DEC_S16_3, DEC_FLOAT_3, GE_VTYPE_THROUGH]

/-- C2, amended: the clamping behaviour the claim describes belongs to the
float-triplet decoded position format (the form through-mode positions are
decoded to): with through-mode on, a stored Z float of -100.0 makes ReadPos
clamp Z to 0.0, a stored Z float of 70000.0 makes ReadPos clamp Z to 1.0,
and makes the raw variant ReadPosThroughZ16 clamp Z to 65535.0. -/
theorem c2_float_through_clamp :
    ((rF3.ReadPos memFneg100 []).1).2.2 = 0 ∧
    ((rF3.ReadPos memF70000 []).1).2.2 = 1 ∧
    ((rF3.ReadPosThroughZ16 memF70000 []).1).2.2 = 65535 := by
  refine ⟨?_, ?_, ?_⟩ <;>
    norm_num [VertexReader.ReadPos, VertexReader.ReadPosThroughZ16, VertexReader.make,
      VertexReader.isThrough, rF3, fmtF3, memFneg100, memF70000, readF32, ctrunc,
      DEC_S16_3, DEC_FLOAT_3, GE_VTYPE_THROUGH]

/-- C3: for a through-mode vertex whose decoded position is the signed-16
triplet (X, Y signed, Z unsigned 16-bit with value z), ReadPos returns
Z = z * (1/65535), a value in [0, 1], ReadPosThroughZ16 returns Z = z, a raw
value in [0, 65535], and the two distinct read operations agree on X and Y. -/
theorem c3_two_z_variants (r : VertexReader) (m : Mem) (log : List String)
    (h1 : r.decFmt.posfmt = DEC_S16_3) (h2 : r.isThrough = true) :
    ((r.ReadPos m log).1).2.2 = (readU16 m (r.data + r.decFmt.posoff + 4) : Rat) * (1 / 65535) ∧
    0 ≤ ((r.ReadPos m log).1).2.2 ∧ ((r.ReadPos m log).1).2.2 ≤ 1 ∧
    ((r.ReadPosThroughZ16 m log).1).2.2 = (readU16 m (r.data + r.decFmt.posoff + 4) : Rat) ∧
    0 ≤ ((r.ReadPosThroughZ16 m log).1).2.2 ∧ ((r.ReadPosThroughZ16 m log).1).2.2 ≤ 65535 ∧
    ((r.ReadPos m log).1).1 = ((r.ReadPosThroughZ16 m log).1).1 ∧
    ((r.ReadPos m log).1).2.1 = ((r.ReadPosThroughZ16 m log).1).2.1 := by
  have hz : readU16 m (r.data + r.decFmt.posoff + 4) < 65536 := readU16_lt _ _
  have hzq : (readU16 m (r.data + r.decFmt.posoff + 4) : Rat) ≤ 65535 := by
    exact_mod_cast Nat.le_of_lt_succ hz
  have hzq0 : (0 : Rat) ≤ (readU16 m (r.data + r.decFmt.posoff + 4) : Rat) := by positivity
  have hv1 : (r.ReadPos m log).1 =
      ((readS16 m (r.data + r.decFmt.posoff) : Rat),
       (readS16 m (r.data + r.decFmt.posoff + 2) : Rat),
       (readU16 m (r.data + r.decFmt.posoff + 4) : Rat) * (1 / 65535)) := by
    simp [VertexReader.ReadPos, h1, h2, DEC_S16_3, DEC_FLOAT_3]
  have hv2 : (r.ReadPosThroughZ16 m log).1 =
      ((readS16 m (r.data + r.decFmt.posoff) : Rat),
       (readS16 m (r.data + r.decFmt.posoff + 2) : Rat),
       (readU16 m (r.data + r.decFmt.posoff + 4) : Rat)) := by
    simp [VertexReader.ReadPosThroughZ16, h1, h2, DEC_S16_3, DEC_FLOAT_3]
  rw [hv1, hv2]
  refine ⟨rfl, by positivity, ?_, rfl, hzq0, hzq, rfl, rfl⟩
  rw [mul_one_div, div_le_one (by norm_num)]
  exact hzq

/-- C3 witness: the through-mode signed-16 reader fixture with Z halfword
65436 decodes to 65436/65535 in the normalized variant and 65436 in the raw
variant. -/
theorem c3_two_z_variants_witness :
    rS16.decFmt.posfmt = DEC_S16_3 ∧ rS16.isThrough = true ∧
    (((rS16.ReadPos memZneg100 []).1).2.2 =
        (readU16 memZneg100 (rS16.data + rS16.decFmt.posoff + 4) : Rat) * (1 / 65535) ∧
      0 ≤ ((rS16.ReadPos memZneg100 []).1).2.2 ∧ ((rS16.ReadPos memZneg100 []).1).2.2 ≤ 1 ∧
      ((rS16.ReadPosThroughZ16 memZneg100 []).1).2.2 =
        (readU16 memZneg100 (rS16.data + rS16.decFmt.posoff + 4) : Rat) ∧
      0 ≤ ((rS16.ReadPosThroughZ16 memZneg100 []).1).2.2 ∧
      ((rS16.ReadPosThroughZ16 memZneg100 []).1).2.2 ≤ 65535 ∧
      ((rS16.ReadPos memZneg100 []).1).1 = ((rS16.ReadPosThroughZ16 memZneg100 []).1).1 ∧
      ((rS16.ReadPos memZneg100 []).1).2.1 = ((rS16.ReadPosThroughZ16 memZneg100 []).1).2.1) :=
  ⟨rfl, by norm_num [rS16, fmtS16, VertexReader.make, VertexReader.isThrough, GE_VTYPE_THROUGH],
    c3_two_z_variants rS16 memZneg100 []
      rfl
      (by norm_num [rS16, fmtS16, VertexReader.make, VertexReader.isThrough, GE_VTYPE_THROUGH])⟩

/-- C5: an IndexConverter built with the "none" width tag converts every
logical position i to i itself; one built with the 8-, 16- or 32-bit tag
converts i to the i-th entry of the index buffer read at that width (1, 2 or
4 bytes per entry, little-endian). -/
theorem c5_index_convert (vertType indices : Nat) (m : Mem) (i : Nat) :
    (vertType &&& GE_VTYPE_IDX_MASK = GE_VTYPE_IDX_NONE →
      (IndexConverter.make vertType indices).convert m i = i) ∧
    (vertType &&& GE_VTYPE_IDX_MASK = GE_VTYPE_IDX_8BIT →
      (IndexConverter.make vertType indices).convert m i = readU8 m (indices + i)) ∧
    (vertType &&& GE_VTYPE_IDX_MASK = GE_VTYPE_IDX_16BIT →
      (IndexConverter.make vertType indices).convert m i = readU16 m (indices + 2 * i)) ∧
    (vertType &&& GE_VTYPE_IDX_MASK = GE_VTYPE_IDX_32BIT →
      (IndexConverter.make vertType indices).convert m i = readU32 m (indices + 4 * i)) := by
  refine ⟨fun h => ?_, fun h => ?_, fun h => ?_, fun h => ?_⟩ <;>
    simp [IndexConverter.convert, IndexConverter.make, h, GE_VTYPE_IDX_NONE,
      GE_VTYPE_IDX_8BIT, GE_VTYPE_IDX_16BIT, GE_VTYPE_IDX_32BIT]

/-- A 16-bit index buffer holding [5, 2, 9, 2] little-endian at address 0. -/
def memIdx16 : Mem :=
  ⟨fun a => if a = 0 then 5 else if a = 2 then 2 else if a = 4 then 9 else
    if a = 6 then 2 else 0, fun _ => 0⟩

/-- C5 witness: a converter with the 16-bit tag over the buffer [5, 2, 9, 2]
maps logical position 2 to entry 9, and one with the "none" tag maps 7 to 7. -/
theorem c5_index_convert_witness :
    (IndexConverter.make GE_VTYPE_IDX_16BIT 0).convert memIdx16 2 = readU16 memIdx16 (0 + 2 * 2) ∧
    readU16 memIdx16 (0 + 2 * 2) = 9 ∧
    (IndexConverter.make 0 0).convert memIdx16 7 = 7 :=
  ⟨(c5_index_convert GE_VTYPE_IDX_16BIT 0 memIdx16 2).2.2.1 (by decide),
    by norm_num [readU16, byteAt, memIdx16],
    (c5_index_convert 0 0 memIdx16 7).1 (by decide)⟩

/-- C8: convert is total in the index-type field: for every field value
outside the three width tags (as left by the masking constructor, or even a
malformed unmasked value) convert returns i unchanged, indistinguishable
from the "none" (unindexed) converter. -/
theorem c8_index_convert_total (indices t : Nat) (m : Mem) (i : Nat)
    (h8 : t ≠ GE_VTYPE_IDX_8BIT) (h16 : t ≠ GE_VTYPE_IDX_16BIT)
    (h32 : t ≠ GE_VTYPE_IDX_32BIT) :
    (IndexConverter.mk indices t).convert m i = i ∧
    (IndexConverter.mk indices t).convert m i =
      (IndexConverter.mk indices GE_VTYPE_IDX_NONE).convert m i := by
  simp only [GE_VTYPE_IDX_8BIT] at h8
  simp only [GE_VTYPE_IDX_16BIT] at h16
  simp only [GE_VTYPE_IDX_32BIT] at h32
  constructor <;>
    simp [IndexConverter.convert, h8, h16, h32, GE_VTYPE_IDX_NONE, GE_VTYPE_IDX_8BIT,
      GE_VTYPE_IDX_16BIT, GE_VTYPE_IDX_32BIT]

/-- C8 witness: the malformed index-type value 42 converts position 11 to 11,
exactly as the "none" converter does. -/
theorem c8_index_convert_total_witness :
    (IndexConverter.mk 0 42).convert memIdx16 11 = 11 ∧
    (IndexConverter.mk 0 42).convert memIdx16 11 =
      (IndexConverter.mk 0 GE_VTYPE_IDX_NONE).convert memIdx16 11 :=
  c8_index_convert_total 0 42 memIdx16 11 (by decide) (by decide) (by decide)

/-- C9: ReadColor1 produces exactly three components.  In the 4x-uint8
encoding it reads only the R, G, B bytes; in the 4x-float encoding only the
first three floats; in both cases the stored alpha (the fourth byte, resp.
the float at offset 12) is never read: two memories agreeing on the R, G, B
storage give the same result. -/
theorem c9_color1_rgb_only (r : VertexReader) (m m2 : Mem) (log log2 : List String) :
    (r.decFmt.c1fmt = DEC_U8_4 →
      (r.ReadColor1 m log).1 =
        ((readU8 m (r.data + r.decFmt.c1off) : Rat) * (1 / 255),
         (readU8 m (r.data + r.decFmt.c1off + 1) : Rat) * (1 / 255),
         (readU8 m (r.data + r.decFmt.c1off + 2) : Rat) * (1 / 255)) ∧
      (m.bytes (r.data + r.decFmt.c1off) = m2.bytes (r.data + r.decFmt.c1off) →
       m.bytes (r.data + r.decFmt.c1off + 1) = m2.bytes (r.data + r.decFmt.c1off + 1) →
       m.bytes (r.data + r.decFmt.c1off + 2) = m2.bytes (r.data + r.decFmt.c1off + 2) →
        (r.ReadColor1 m log).1 = (r.ReadColor1 m2 log2).1)) ∧
    (r.decFmt.c1fmt = DEC_FLOAT_4 →
      (r.ReadColor1 m log).1 =
        (readF32 m (r.data + r.decFmt.c1off), readF32 m (r.data + r.decFmt.c1off + 4),
         readF32 m (r.data + r.decFmt.c1off + 8)) ∧
      (m.floats (r.data + r.decFmt.c1off) = m2.floats (r.data + r.decFmt.c1off) →
       m.floats (r.data + r.decFmt.c1off + 4) = m2.floats (r.data + r.decFmt.c1off + 4) →
       m.floats (r.data + r.decFmt.c1off + 8) = m2.floats (r.data + r.decFmt.c1off + 8) →
        (r.ReadColor1 m log).1 = (r.ReadColor1 m2 log2).1)) := by
  constructor
  · intro h
    constructor
    · simp [VertexReader.ReadColor1, h, DEC_U8_4, DEC_FLOAT_4]
    · intro e0 e1 e2
      simp [VertexReader.ReadColor1, h, DEC_U8_4, DEC_FLOAT_4, readU8, byteAt, e0, e1, e2]
  · intro h
    constructor
    · simp [VertexReader.ReadColor1, h, DEC_U8_4, DEC_FLOAT_4]
    · intro e0 e1 e2
      simp [VertexReader.ReadColor1, h, DEC_U8_4, DEC_FLOAT_4, readF32, e0, e1, e2]

/-- A decoded format whose color1 is 4x-uint8 at offset 0. -/
def fmtC1U8 : DecVtxFormat := ⟨0, 0, 0, 0, DEC_U8_4, 0, 0, 0, 0, 0, 4⟩

/-- A reader over fmtC1U8. -/
def rC1 : VertexReader := VertexReader.make 0 fmtC1U8 0

/-- Color1 storage 255, 0, 51 with alpha byte 7. -/
def memC1a : Mem := ⟨fun a => if a = 0 then 255 else if a = 2 then 51 else
  if a = 3 then 7 else 0, fun _ => 0⟩

/-- Same R, G, B storage but alpha byte 200. -/
def memC1b : Mem := ⟨fun a => if a = 0 then 255 else if a = 2 then 51 else
  if a = 3 then 200 else 0, fun _ => 0⟩

/-- C9 witness: over the uint8 color1 fixture the result is the three scaled
R, G, B bytes, and changing only the alpha byte (7 to 200) leaves it
unchanged. -/
theorem c9_color1_rgb_only_witness :
    (rC1.ReadColor1 memC1a []).1 =
      ((readU8 memC1a (rC1.data + rC1.decFmt.c1off) : Rat) * (1 / 255),
       (readU8 memC1a (rC1.data + rC1.decFmt.c1off + 1) : Rat) * (1 / 255),
       (readU8 memC1a (rC1.data + rC1.decFmt.c1off + 2) : Rat) * (1 / 255)) ∧
    (rC1.ReadColor1 memC1a []).1 = (rC1.ReadColor1 memC1b ["other"]).1 :=
  ⟨((c9_color1_rgb_only rC1 memC1a memC1b [] ["other"]).1 rfl).1,
    ((c9_color1_rgb_only rC1 memC1a memC1b [] ["other"]).1 rfl).2
      (by norm_num [memC1a, memC1b, rC1, fmtC1U8, VertexReader.make])
      (by norm_num [memC1a, memC1b, rC1, fmtC1U8, VertexReader.make])
      (by norm_num [memC1a, memC1b, rC1, fmtC1U8, VertexReader.make])⟩

/-- C10: normals and positions use different fixed-point divisors.  ReadNrm
scales signed-8 components by 1/127 and signed-16 components by 1/32767, so
the maximum positive inputs (127, 32767) decode to exactly 1; non-through
ReadPos scales by 1/128 and 1/32768, so every component stays strictly
below 1. -/
theorem c10_divisors (r : VertexReader) (m : Mem) (log : List String) :
    (r.decFmt.nrmfmt = DEC_S8_3 →
      (r.ReadNrm m log).1 =
        ((readS8 m (r.data + r.decFmt.nrmoff) : Rat) * (1 / 127),
         (readS8 m (r.data + r.decFmt.nrmoff + 1) : Rat) * (1 / 127),
         (readS8 m (r.data + r.decFmt.nrmoff + 2) : Rat) * (1 / 127)) ∧
      (readS8 m (r.data + r.decFmt.nrmoff) = 127 → ((r.ReadNrm m log).1).1 = 1)) ∧
    (r.decFmt.nrmfmt = DEC_S16_3 →
      (r.ReadNrm m log).1 =
        ((readS16 m (r.data + r.decFmt.nrmoff) : Rat) * (1 / 32767),
         (readS16 m (r.data + r.decFmt.nrmoff + 2) : Rat) * (1 / 32767),
         (readS16 m (r.data + r.decFmt.nrmoff + 4) : Rat) * (1 / 32767)) ∧
      (readS16 m (r.data + r.decFmt.nrmoff) = 32767 → ((r.ReadNrm m log).1).1 = 1)) ∧
    (r.decFmt.posfmt = DEC_S8_3 → r.isThrough = false →
      (r.ReadPos m log).1 =
        ((readS8 m (r.data + r.decFmt.posoff) : Rat) * (1 / 128),
         (readS8 m (r.data + r.decFmt.posoff + 1) : Rat) * (1 / 128),
         (readS8 m (r.data + r.decFmt.posoff + 2) : Rat) * (1 / 128)) ∧
      ((r.ReadPos m log).1).1 < 1 ∧ ((r.ReadPos m log).1).2.1 < 1 ∧
      ((r.ReadPos m log).1).2.2 < 1) ∧
    (r.decFmt.posfmt = DEC_S16_3 → r.isThrough = false →
      (r.ReadPos m log).1 =
        ((readS16 m (r.data + r.decFmt.posoff) : Rat) * (1 / 32768),
         (readS16 m (r.data + r.decFmt.posoff + 2) : Rat) * (1 / 32768),
         (readS16 m (r.data + r.decFmt.posoff + 4) : Rat) * (1 / 32768)) ∧
      ((r.ReadPos m log).1).1 < 1 ∧ ((r.ReadPos m log).1).2.1 < 1 ∧
      ((r.ReadPos m log).1).2.2 < 1) := by
  have q8 : ∀ a, (readS8 m a : Rat) ≤ 127 := fun a => by
    exact_mod_cast readS8_le m a
  have q16 : ∀ a, (readS16 m a : Rat) ≤ 32767 := fun a => by
    exact_mod_cast readS16_le m a
  refine ⟨fun h => ?_, fun h => ?_, fun h ht => ?_, fun h ht => ?_⟩
  · have hv : (r.ReadNrm m log).1 =
        ((readS8 m (r.data + r.decFmt.nrmoff) : Rat) * (1 / 127),
         (readS8 m (r.data + r.decFmt.nrmoff + 1) : Rat) * (1 / 127),
         (readS8 m (r.data + r.decFmt.nrmoff + 2) : Rat) * (1 / 127)) := by
      simp [VertexReader.ReadNrm, h, DEC_S8_3, DEC_S16_3, DEC_FLOAT_3]
    refine ⟨hv, fun h127 => ?_⟩
    rw [hv]
    show (readS8 m (r.data + r.decFmt.nrmoff) : Rat) * (1 / 127) = 1
    rw [h127]
    norm_num
  · have hv : (r.ReadNrm m log).1 =
        ((readS16 m (r.data + r.decFmt.nrmoff) : Rat) * (1 / 32767),
         (readS16 m (r.data + r.decFmt.nrmoff + 2) : Rat) * (1 / 32767),
         (readS16 m (r.data + r.decFmt.nrmoff + 4) : Rat) * (1 / 32767)) := by
      simp [VertexReader.ReadNrm, h, DEC_S8_3, DEC_S16_3, DEC_FLOAT_3]
    refine ⟨hv, fun h32767 => ?_⟩
    rw [hv]
    show (readS16 m (r.data + r.decFmt.nrmoff) : Rat) * (1 / 32767) = 1
    rw [h32767]
    norm_num
  · have hv : (r.ReadPos m log).1 =
        ((readS8 m (r.data + r.decFmt.posoff) : Rat) * (1 / 128),
         (readS8 m (r.data + r.decFmt.posoff + 1) : Rat) * (1 / 128),
         (readS8 m (r.data + r.decFmt.posoff + 2) : Rat) * (1 / 128)) := by
      simp [VertexReader.ReadPos, h, ht, DEC_S8_3, DEC_S16_3, DEC_FLOAT_3]
    rw [hv]
    refine ⟨rfl, ?_, ?_, ?_⟩ <;>
      · show _ * (1 / 128 : Rat) < 1
        have := q8 (r.data + r.decFmt.posoff)
        have := q8 (r.data + r.decFmt.posoff + 1)
        have := q8 (r.data + r.decFmt.posoff + 2)
        linarith
  · have hv : (r.ReadPos m log).1 =
        ((readS16 m (r.data + r.decFmt.posoff) : Rat) * (1 / 32768),
         (readS16 m (r.data + r.decFmt.posoff + 2) : Rat) * (1 / 32768),
         (readS16 m (r.data + r.decFmt.posoff + 4) : Rat) * (1 / 32768)) := by
      simp [VertexReader.ReadPos, h, ht, DEC_S8_3, DEC_S16_3, DEC_FLOAT_3]
    rw [hv]
    refine ⟨rfl, ?_, ?_, ?_⟩ <;>
      · show _ * (1 / 32768 : Rat) < 1
        have := q16 (r.data + r.decFmt.posoff)
        have := q16 (r.data + r.decFmt.posoff + 2)
        have := q16 (r.data + r.decFmt.posoff + 4)
        linarith

/-- A decoded format with a signed-8 normal at offset 0 and a signed-8
position at offset 4 (non-through reader below). -/
def fmtS8NP : DecVtxFormat := ⟨0, 0, 0, 0, 0, 0, DEC_S8_3, 0, DEC_S8_3, 4, 8⟩

/-- A non-through reader over fmtS8NP. -/
def rS8NP : VertexReader := VertexReader.make 0 fmtS8NP 0

/-- Memory holding 127 in both the normal X byte and the position X byte. -/
def memS8Max : Mem := ⟨fun a => if a = 0 then 127 else if a = 4 then 127 else 0, fun _ => 0⟩

/-- C10 witness: at the maximum signed-8 input 127 the normal X decodes to
exactly 1, while every component of the non-through signed-8 position stays
strictly below 1 (127/128 for X). -/
theorem c10_divisors_witness :
    ((rS8NP.ReadNrm memS8Max []).1).1 = 1 ∧
    ((rS8NP.ReadPos memS8Max []).1).1 < 1 ∧
    ((rS8NP.ReadPos memS8Max []).1).1 =
      (readS8 memS8Max (rS8NP.data + rS8NP.decFmt.posoff) : Rat) * (1 / 128) :=
  ⟨((c10_divisors rS8NP memS8Max []).1 rfl).2
      (by norm_num [readS8, toS8, byteAt, memS8Max, rS8NP, fmtS8NP, VertexReader.make]),
    (((c10_divisors rS8NP memS8Max []).2.2.1 rfl rfl).2).1,
    by
      have hv := (((c10_divisors rS8NP memS8Max []).2.2.1 rfl rfl)).1
      rw [hv]⟩

/-! Diagnostic plumbing: reader values never depend on the log, and each
reader either leaves the log unchanged or raises its single key once. -/

theorem readUV_val_log (r : VertexReader) (m : Mem) (log log2 : List String) :
    (r.ReadUV m log).1 = (r.ReadUV m log2).1 := by
  unfold VertexReader.ReadUV
  split_ifs <;> rfl

theorem readColor0_val_log (r : VertexReader) (m : Mem) (log log2 : List String) :
    (r.ReadColor0 m log).1 = (r.ReadColor0 m log2).1 := by
  unfold VertexReader.ReadColor0
  split_ifs <;> rfl

theorem readColor1_val_log (r : VertexReader) (m : Mem) (log log2 : List String) :
    (r.ReadColor1 m log).1 = (r.ReadColor1 m log2).1 := by
  unfold VertexReader.ReadColor1
  split_ifs <;> rfl

theorem readNrm_val_log (r : VertexReader) (m : Mem) (log log2 : List String) :
    (r.ReadNrm m log).1 = (r.ReadNrm m log2).1 := by
  unfold VertexReader.ReadNrm
  split_ifs <;> rfl

theorem readPos_val_log (r : VertexReader) (m : Mem) (log log2 : List String) :
    (r.ReadPos m log).1 = (r.ReadPos m log2).1 := by
  unfold VertexReader.ReadPos
  split_ifs <;> rfl

theorem readUV_log_shape (r : VertexReader) (m : Mem) (log : List String) :
    (r.ReadUV m log).2 = log ∨ (r.ReadUV m log).2 = reportOnce "fmtuv" log := by
  unfold VertexReader.ReadUV
  split_ifs <;> simp

theorem readColor0_log_shape (r : VertexReader) (m : Mem) (log : List String) :
    (r.ReadColor0 m log).2 = log ∨ (r.ReadColor0 m log).2 = reportOnce "fmtc0" log := by
  unfold VertexReader.ReadColor0
  split_ifs <;> simp

theorem readColor1_log_shape (r : VertexReader) (m : Mem) (log : List String) :
    (r.ReadColor1 m log).2 = log ∨ (r.ReadColor1 m log).2 = reportOnce "fmtc1" log := by
  unfold VertexReader.ReadColor1
  split_ifs <;> simp

theorem readNrm_log_shape (r : VertexReader) (m : Mem) (log : List String) :
    (r.ReadNrm m log).2 = log ∨ (r.ReadNrm m log).2 = reportOnce "fmtnrm" log := by
  unfold VertexReader.ReadNrm
  split_ifs <;> simp

theorem readPos_log_shape (r : VertexReader) (m : Mem) (log : List String) :
    (r.ReadPos m log).2 = log ∨ (r.ReadPos m log).2 = reportOnce "fmtpos" log := by
  unfold VertexReader.ReadPos
  split_ifs <;> simp

theorem reportOnce_count_le (key k : String) (log : List String)
    (h : log.count key ≤ 1) : (reportOnce k log).count key ≤ 1 := by
  unfold reportOnce
  split
  · exact h
  · rename_i hk
    by_cases hkey : key = k
    · subst hkey
      have : log.count key = 0 := List.count_eq_zero.mpr hk
      simp [List.count_cons, this]
    · simpa [List.count_cons, hkey] using h

theorem log_shape_count_le (key k : String) (log l2 : List String)
    (hs : l2 = log ∨ l2 = reportOnce k log) (h : log.count key ≤ 1) :
    l2.count key ≤ 1 := by
  rcases hs with hs | hs
  · rw [hs]; exact h
  · rw [hs]; exact reportOnce_count_le key k log h

/-- The five decoded attribute values of one vertex. -/
structure DecodedAttrs where
  uv : Rat × Rat
  c0 : Rat × Rat × Rat × Rat
  c1 : Rat × Rat × Rat
  nrm : Rat × Rat × Rat
  pos : Rat × Rat × Rat

/-- Read all five logical attributes of the current vertex in order,
threading the diagnostic log through the reads. -/
def VertexReader.readAllAttrs (r : VertexReader) (m : Mem) (log : List String) :
    DecodedAttrs × List String :=
  let u := r.ReadUV m log
  let a := r.ReadColor0 m u.2
  let b := r.ReadColor1 m a.2
  let n := r.ReadNrm m b.2
  let p := r.ReadPos m n.2
  (⟨u.1, a.1, b.1, n.1, p.1⟩, p.2)

/-- Decode `n` vertices starting at vertex index `i` (Goto then read all
attributes), threading the diagnostic log. -/
def readVertsFrom (r : VertexReader) (m : Mem) (log : List String) (i : Nat) :
    Nat → List DecodedAttrs × List String
  | 0 => ([], log)
  | Nat.succ n =>
    let first := (r.Goto i).readAllAttrs m log
    let rest := readVertsFrom r m first.2 (i + 1) n
    (first.1 :: rest.1, rest.2)

theorem readAllAttrs_val_log (r : VertexReader) (m : Mem) (log log2 : List String) :
    (r.readAllAttrs m log).1 = (r.readAllAttrs m log2).1 := by
  unfold VertexReader.readAllAttrs
  simp only [DecodedAttrs.mk.injEq]
  exact ⟨readUV_val_log r m _ _, readColor0_val_log r m _ _, readColor1_val_log r m _ _,
    readNrm_val_log r m _ _, readPos_val_log r m _ _⟩

theorem readAllAttrs_count_le (r : VertexReader) (m : Mem) (log : List String)
    (key : String) (h : log.count key ≤ 1) :
    ((r.readAllAttrs m log).2).count key ≤ 1 := by
  unfold VertexReader.readAllAttrs
  have h1 := log_shape_count_le key "fmtuv" log _ (readUV_log_shape r m log) h
  have h2 := log_shape_count_le key "fmtc0" _ _ (readColor0_log_shape r m _) h1
  have h3 := log_shape_count_le key "fmtc1" _ _ (readColor1_log_shape r m _) h2
  have h4 := log_shape_count_le key "fmtnrm" _ _ (readNrm_log_shape r m _) h3
  exact log_shape_count_le key "fmtpos" _ _ (readPos_log_shape r m _) h4

theorem readVertsFrom_count_le (r : VertexReader) (m : Mem) (key : String) :
    ∀ (n : Nat) (log : List String) (i : Nat), log.count key ≤ 1 →
      ((readVertsFrom r m log i n).2).count key ≤ 1 := by
  intro n
  induction n with
  | zero => intro log i h; exact h
  | succ n ih =>
    intro log i h
    exact ih _ (i + 1) (readAllAttrs_count_le _ m log key h)

theorem readVertsFrom_vals (r : VertexReader) (m : Mem) :
    ∀ (n : Nat) (log : List String) (i : Nat),
      (readVertsFrom r m log i n).1 =
        (List.range n).map (fun k => ((r.Goto (i + k)).readAllAttrs m []).1) := by
  intro n
  induction n with
  | zero => intro log i; simp [readVertsFrom]
  | succ n ih =>
    intro log i
    simp only [readVertsFrom, List.range_succ_eq_map, List.map_cons, List.map_map]
    congr 1
    · simpa using readAllAttrs_val_log (r.Goto i) m log []
    · rw [ih]
      apply List.map_congr_left
      intro k _
      simp only [Function.comp]
      have : i + (k + 1) = i + 1 + k := by omega
      rw [this]

/-- C4: every attribute-format tag outside the supported set of its reader
yields all-zero output for that attribute; over any multi-vertex decode each
diagnostic key is raised at most once (deduplicated); and decoding does not
abort: the decoded values of all attributes of all vertices are exactly the
per-vertex reads, independent of any diagnostics already raised. -/
theorem c4_unsupported_zero_fill (r : VertexReader) (m : Mem) (log : List String) :
    (r.decFmt.nrmfmt ≠ DEC_FLOAT_3 → r.decFmt.nrmfmt ≠ DEC_S16_3 →
      r.decFmt.nrmfmt ≠ DEC_S8_3 → (r.ReadNrm m log).1 = (0, 0, 0)) ∧
    (r.decFmt.posfmt ≠ DEC_FLOAT_3 → r.decFmt.posfmt ≠ DEC_S16_3 →
      r.decFmt.posfmt ≠ DEC_S8_3 → (r.ReadPos m log).1 = (0, 0, 0)) ∧
    (r.decFmt.uvfmt ≠ DEC_U8_2 → r.decFmt.uvfmt ≠ DEC_U16_2 →
      r.decFmt.uvfmt ≠ DEC_FLOAT_2 → (r.ReadUV m log).1 = (0, 0)) ∧
    (r.decFmt.c0fmt ≠ DEC_U8_4 → r.decFmt.c0fmt ≠ DEC_FLOAT_4 →
      (r.ReadColor0 m log).1 = (0, 0, 0, 0)) ∧
    (r.decFmt.c1fmt ≠ DEC_U8_4 → r.decFmt.c1fmt ≠ DEC_FLOAT_4 →
      (r.ReadColor1 m log).1 = (0, 0, 0)) ∧
    (∀ (key : String) (n i : Nat), ((readVertsFrom r m [] i n).2).count key ≤ 1) ∧
    (∀ (n i : Nat),
      (readVertsFrom r m log i n).1 =
        (List.range n).map (fun k => ((r.Goto (i + k)).readAllAttrs m []).1) ∧
      (readVertsFrom r m log i n).1.length = n) := by
  refine ⟨fun h1 h2 h3 => ?_, fun h1 h2 h3 => ?_, fun h1 h2 h3 => ?_,
    fun h1 h2 => ?_, fun h1 h2 => ?_, fun key n i => ?_, fun n i => ⟨?_, ?_⟩⟩
  · simp [VertexReader.ReadNrm, h1, h2, h3]
  · simp [VertexReader.ReadPos, h1, h2, h3]
  · simp [VertexReader.ReadUV, h1, h2, h3]
  · simp [VertexReader.ReadColor0, h1, h2]
  · simp [VertexReader.ReadColor1, h1, h2]
  · exact readVertsFrom_count_le r m key n [] i (by simp)
  · exact readVertsFrom_vals r m n log i
  · rw [readVertsFrom_vals r m n log i]
    simp

/-- A decoded format whose normal tag 15 is one past the last defined
encoding (DEC_U16_4 = 14); the other attributes use supported tags. -/
def fmtBadNrm : DecVtxFormat := ⟨DEC_U8_2, 0, DEC_U8_4, 2, DEC_U8_4, 6, 15, 10, DEC_S8_3, 13, 16⟩

/-- A reader over fmtBadNrm. -/
def rBadNrm : VertexReader := VertexReader.make 0 fmtBadNrm 0

/-- All-zero memory. -/
def memZero : Mem := ⟨fun _ => 0, fun _ => 0⟩

/-- C4 witness: with normal format 15 the normal reads as (0,0,0); over a
3-vertex decode the fmtnrm diagnostic is raised at most once; and the
decoded values are the per-vertex reads even when a diagnostic was already
raised before the decode started. -/
theorem c4_unsupported_zero_fill_witness :
    (rBadNrm.ReadNrm memZero []).1 = (0, 0, 0) ∧
    ((readVertsFrom rBadNrm memZero [] 0 3).2).count "fmtnrm" ≤ 1 ∧
    (readVertsFrom rBadNrm memZero ["fmtnrm"] 0 3).1 =
      (List.range 3).map (fun k => ((rBadNrm.Goto (0 + k)).readAllAttrs memZero []).1) :=
  ⟨(c4_unsupported_zero_fill rBadNrm memZero []).1
      (by decide) (by decide) (by decide),
    (c4_unsupported_zero_fill rBadNrm memZero []).2.2.2.2.2.1 "fmtnrm" 3 0,
    ((c4_unsupported_zero_fill rBadNrm memZero ["fmtnrm"]).2.2.2.2.2.2 3 0).1⟩

/-- Modelled from the spec: the body of VertexDecoder::SetVertexType lives in
VertexDecoderCommon.cpp, which is not part of this source tree (the header
declares `StepFunction steps_[5]` with the comment "Never more than 5").
Per the spec, the planner walks the five logical attribute slots in order
(weights, texcoord, color, normal, position) and emits at most one
conversion step per slot. -/
inductive AttrSlot where
  | weights
  | texcoord
  | color
  | normal
  | position
  deriving DecidableEq

/-- Modelled from the spec: the step pipeline SetVertexType builds, one
optional step per logical attribute slot, in slot order (a slot contributes
a step exactly when the attribute is present in the vertex type). -/
def SetVertexTypeSteps (hasWeights hasTc hasCol hasNrm hasPos : Bool) : List AttrSlot :=
  (if hasWeights then [AttrSlot.weights] else []) ++
  (if hasTc then [AttrSlot.texcoord] else []) ++
  (if hasCol then [AttrSlot.color] else []) ++
  (if hasNrm then [AttrSlot.normal] else []) ++
  (if hasPos then [AttrSlot.position] else [])

/-- The numSteps_ field after SetVertexType: the pipeline length. -/
def numSteps (hasWeights hasTc hasCol hasNrm hasPos : Bool) : Nat :=
  (SetVertexTypeSteps hasWeights hasTc hasCol hasNrm hasPos).length

/-- C6: after every SetVertexType (any combination of present attributes)
the step pipeline holds at most one step per logical attribute (no slot is
repeated) and its length numSteps_ lies between 0 and 5; the bound holds for
every combination, hence is preserved by every further SetVertexType. -/
theorem c6_pipeline_length :
    ∀ (hasWeights hasTc hasCol hasNrm hasPos : Bool),
      numSteps hasWeights hasTc hasCol hasNrm hasPos ≤ 5 ∧
      (SetVertexTypeSteps hasWeights hasTc hasCol hasNrm hasPos).Nodup := by
  decide

/-- Modelled from the spec: planner layout assignment (the planner body,
VertexDecoderCommon.cpp, is not part of this source tree).  Decoded
attribute offsets are assigned sequentially in slot order: each present
attribute starts where the previous one ended.  Returns the (offset, size)
range of every attribute. -/
def planOffs (off : Nat) : List Nat → List (Nat × Nat)
  | [] => []
  | s :: rest => (off, s) :: planOffs (off + s) rest

/-- Modelled from the spec: the decoded stride is the total attribute size
rounded to 4-byte granularity with RoundUp4. -/
def planStride (sizes : List Nat) : Nat := RoundUp4 sizes.sum

theorem planOffs_bounds (sizes : List Nat) :
    ∀ off, ∀ p ∈ planOffs off sizes, off ≤ p.1 ∧ p.1 + p.2 ≤ off + sizes.sum := by
  induction sizes with
  | nil => intro off p hp; simp [planOffs] at hp
  | cons s rest ih =>
    intro off p hp
    simp only [planOffs, List.mem_cons] at hp
    rcases hp with hp | hp
    · subst hp
      simp only [List.sum_cons]
      omega
    · have := ih (off + s) p hp
      simp only [List.sum_cons]
      omega

theorem planOffs_pairwise (sizes : List Nat) :
    ∀ off, List.Pairwise (fun p q => p.1 + p.2 ≤ q.1) (planOffs off sizes) := by
  induction sizes with
  | nil => intro off; simp [planOffs]
  | cons s rest ih =>
    intro off
    simp only [planOffs]
    refine List.Pairwise.cons ?_ (ih (off + s))
    intro q hq
    have := (planOffs_bounds rest (off + s) q hq).1
    omega

theorem land_mask32 (n : Nat) (h : n < 2 ^ 32) : n &&& 4294967292 = 4 * (n / 4) := by
  apply Nat.eq_of_testBit_eq
  intro j
  have hm : (4294967292 : Nat) = 2 ^ 2 * (2 ^ 30 - 1) := by norm_num
  have h4 : 4 * (n / 4) = 2 ^ 2 * (n / 2 ^ 2) := by norm_num
  rw [Nat.testBit_and, hm, h4, Nat.testBit_mul_pow_two, Nat.testBit_mul_pow_two,
    Nat.testBit_two_pow_sub_one]
  have e2 : (2 : Nat) ^ 2 = 4 := by norm_num
  by_cases hj2 : 2 ≤ j
  · by_cases hj32 : j < 32
    · have hjj : j - 2 < 30 := by omega
      have hbit : Nat.testBit (n / 2 ^ 2) (j - 2) = Nat.testBit n j := by
        rw [Nat.testBit_to_div_mod, Nat.testBit_to_div_mod, Nat.div_div_eq_div_mul,
          ← Nat.pow_add]
        have he : 2 + (j - 2) = j := by omega
        rw [he]
      rw [e2] at hbit
      simp [hj2, hjj, hbit]
    · have e32 : (2 : Nat) ^ 32 = 4294967296 := by norm_num
      have e30 : (2 : Nat) ^ 30 = 1073741824 := by norm_num
      have e2 : (2 : Nat) ^ 2 = 4 := by norm_num
      have h1 : n / 2 ^ 2 < 2 ^ 30 := by
        rw [e2, e30]
        rw [e32] at h
        omega
      have h2 : (2 : Nat) ^ 30 ≤ 2 ^ (j - 2) :=
        Nat.pow_le_pow_right (by norm_num) (by omega)
      have hfb : Nat.testBit (n / 2 ^ 2) (j - 2) = false :=
        Nat.testBit_lt_two_pow (lt_of_lt_of_le h1 h2)
      rw [e2] at hfb
      have hno : ¬ (j - 2 < 30) := by omega
      simp [hj2, hno, hfb]
  · simp [hj2]

theorem roundUp4_eq (x : Nat) (h : x + 3 < 2 ^ 32) :
    RoundUp4 x = 4 * ((x + 3) / 4) :=
  land_mask32 (x + 3) h

/-- C7: the planned layout assigns pairwise-disjoint attribute byte ranges
(each range ends before the next begins), every range lies within
[0, stride), the stride is the total size rounded to 4-byte granularity,
and RoundUp4 x = (x + 3) & ~3 is, for every x with no 32-bit overflow, the
least multiple of 4 that is ≥ x. -/
theorem c7_layout_disjoint (sizes : List Nat) (h : sizes.sum + 3 < 2 ^ 32) :
    List.Pairwise (fun p q => p.1 + p.2 ≤ q.1) (planOffs 0 sizes) ∧
    (∀ p ∈ planOffs 0 sizes, p.1 + p.2 ≤ planStride sizes) ∧
    planStride sizes % 4 = 0 ∧
    sizes.sum ≤ planStride sizes ∧
    (∀ x, x + 3 < 2 ^ 32 →
      x ≤ RoundUp4 x ∧ RoundUp4 x % 4 = 0 ∧
      ∀ y, x ≤ y → y % 4 = 0 → RoundUp4 x ≤ y) := by
  have hstride : planStride sizes = 4 * ((sizes.sum + 3) / 4) := roundUp4_eq sizes.sum h
  refine ⟨planOffs_pairwise sizes 0, fun p hp => ?_, ?_, ?_, fun x hx => ?_⟩
  · have hb := (planOffs_bounds sizes 0 p hp).2
    rw [hstride]
    omega
  · rw [hstride]
    omega
  · rw [hstride]
    omega
  · have hr : RoundUp4 x = 4 * ((x + 3) / 4) := roundUp4_eq x hx
    refine ⟨?_, ?_, fun y hy hy4 => ?_⟩ <;> rw [hr] <;> omega

/-- C7 witness: the attribute sizes 8, 4, 16, 12, 12 plan to disjoint
in-stride ranges with a 4-byte-granular stride, and RoundUp4 9 = 12 is the
least multiple of 4 that is ≥ 9. -/
theorem c7_layout_disjoint_witness :
    [8, 4, 16, 12, 12].sum + 3 < 2 ^ 32 ∧
    (∀ p ∈ planOffs 0 [8, 4, 16, 12, 12], p.1 + p.2 ≤ planStride [8, 4, 16, 12, 12]) ∧
    planStride [8, 4, 16, 12, 12] % 4 = 0 ∧
    (9 ≤ RoundUp4 9 ∧ RoundUp4 9 % 4 = 0 ∧ ∀ y, 9 ≤ y → y % 4 = 0 → RoundUp4 9 ≤ y) :=
  ⟨by norm_num,
    (c7_layout_disjoint [8, 4, 16, 12, 12] (by norm_num)).2.1,
    (c7_layout_disjoint [8, 4, 16, 12, 12] (by norm_num)).2.2.1,
    (c7_layout_disjoint [8, 4, 16, 12, 12] (by norm_num)).2.2.2.2 9 (by norm_num)⟩

/-- Modelled from the spec: the bodies of VertexDecoder::DecodeVerts and
VertexDecoderJitCache::Compile live in architecture-specific source files
that are not part of this source tree (the header only declares them).  A
pipeline is modelled by its ordered list of conversion steps — each step a
memory transformation given the input and output record addresses — plus
the PSP-side input stride and the decoded output stride. -/
structure PipelineModel where
  steps : List (Mem → Nat → Nat → Mem)
  inputStride : Nat
  outputStride : Nat

/-- Run every step of the pipeline, in order, against one input record and
one output record. -/
def runSteps (p : PipelineModel) (m : Mem) (src dst : Nat) : Mem :=
  p.steps.foldl (fun acc st => st acc src dst) m

/-- Modelled from the spec: the interpreted decode loop.  For each vertex
index i of the range, the input record is at inputBase + i * inputStride
and the output record at outputBase + (i - lowerBound) * outputStride;
`count` vertices are processed starting at index i. -/
def DecodeVertsFrom (p : PipelineModel) (inputBase outputBase lowerBound : Nat) :
    Nat → Nat → Mem → Mem
  | _, 0, m => m
  | i, Nat.succ nrem, m =>
    DecodeVertsFrom p inputBase outputBase lowerBound (i + 1) nrem
      (runSteps p m (inputBase + i * p.inputStride)
        (outputBase + (i - lowerBound) * p.outputStride))

/-- Modelled from the spec: VertexDecoder::DecodeVerts decodes every vertex
index in [indexLowerBound, indexUpperBound] inclusive. -/
def DecodeVerts (p : PipelineModel) (m : Mem)
    (decoded verts indexLowerBound indexUpperBound : Nat) : Mem :=
  DecodeVertsFrom p verts decoded indexLowerBound indexLowerBound
    (indexUpperBound + 1 - indexLowerBound) m

/-- Modelled from the spec: the loop of a compiled vertex decoder — decode
`count` contiguous vertices starting at `src` into `dst`, advancing both
pointers by their strides after each vertex. -/
def jittedRun (p : PipelineModel) : Nat → Nat → Nat → Mem → Mem
  | _, _, 0, m => m
  | src, dst, Nat.succ n, m =>
    jittedRun p (src + p.inputStride) (dst + p.outputStride) n (runSteps p m src dst)

/-- Modelled from the spec: VertexDecoderJitCache::Compile may legitimately
fail (modelled by the `ok` flag: no native implementation for a step, or
code-size budget exceeded), returning none; on success it returns the
compiled per-vertex loop for the pipeline. -/
def Compile (p : PipelineModel) (ok : Bool) : Option (Nat → Nat → Nat → Mem → Mem) :=
  if ok then some (jittedRun p) else none

theorem jittedRun_eq_decodeFrom (p : PipelineModel) (inputBase outputBase lb : Nat) :
    ∀ (n i : Nat) (m : Mem), lb ≤ i →
      jittedRun p (inputBase + i * p.inputStride) (outputBase + (i - lb) * p.outputStride) n m =
        DecodeVertsFrom p inputBase outputBase lb i n m := by
  intro n
  induction n with
  | zero => intro i m _; rfl
  | succ n ih =>
    intro i m hi
    simp only [jittedRun, DecodeVertsFrom]
    have h1 : inputBase + i * p.inputStride + p.inputStride =
        inputBase + (i + 1) * p.inputStride := by ring
    have h2 : outputBase + (i - lb) * p.outputStride + p.outputStride =
        outputBase + (i + 1 - lb) * p.outputStride := by
      have : i + 1 - lb = (i - lb) + 1 := by omega
      rw [this]
      ring
    rw [h1, h2]
    exact ih (i + 1) _ (by omega)

/-- C1: whenever Compile succeeds, the compiled function — called on the
source pointer already adjusted to the lower index bound, the destination
pointer, and the vertex count of the range — produces exactly the memory
DecodeVerts produces through the interpreted step pipeline on the same
inputs (hence identical output bytes, vertex by vertex). -/
theorem c1_compile_matches_interpreter (p : PipelineModel) (ok : Bool)
    (f : Nat → Nat → Nat → Mem → Mem) (hc : Compile p ok = some f)
    (m : Mem) (verts decoded lb ub : Nat) :
    f (verts + lb * p.inputStride) decoded (ub + 1 - lb) m =
      DecodeVerts p m decoded verts lb ub := by
  have hok : ok = true := by
    cases ok
    · simp [Compile] at hc
    · rfl
  subst hok
  have hf : f = jittedRun p := by
    simpa [Compile] using hc.symm
  subst hf
  rw [DecodeVerts]
  simpa using jittedRun_eq_decodeFrom p verts decoded lb (ub + 1 - lb) lb m le_rfl

/-- A one-step demonstration pipeline: the step writes byte 1 at the output
record address. -/
def pDemo : PipelineModel :=
  ⟨[fun m _ dst => ⟨fun a => if a = dst then 1 else m.bytes a, m.floats⟩], 4, 8⟩

/-- C1 witness: Compile succeeds on the demonstration pipeline and the
compiled loop run over the two-vertex range [0, 1] yields exactly the
interpreted DecodeVerts result. -/
theorem c1_compile_matches_interpreter_witness :
    Compile pDemo true = some (jittedRun pDemo) ∧
    jittedRun pDemo (100 + 0 * pDemo.inputStride) 200 (1 + 1 - 0) memZero =
      DecodeVerts pDemo memZero 200 100 0 1 :=
  ⟨rfl, c1_compile_matches_interpreter pDemo true (jittedRun pDemo) rfl memZero 100 200 0 1⟩
